import Mathlib

/-!
# telepath: template-to-shell-script pipeline

A shallow embedding of `common/tsh.go` (`parseExtraVars`, the `listTemplates`
template function, `parseTemplate`) and of `cmd/main.go` (`main`), together
with the properties of these functions.

Conventions of the embedding.

* A Go `string` / `[]byte` is a finite sequence of bytes.  It is modelled as a
  list, one `Char` per byte.  The only bytes the code ever inspects are `=`
  and the newline.
* A Go `map[string]V` is an association list with pairwise distinct keys.
* A run-time panic and `os.Exit` are explicit results.
* The operating system and the libraries the code calls (`ioutil.ReadFile`,
  `strings.SplitN`, `text/template`, `mvdan/sh/syntax`) are not part of the
  repository.  `strings.SplitN`, `fmt.Println`, `ioutil.ReadFile` and
  `template.ParseFiles` follow their Go implementation; the template parser,
  the template executor, the shell parser and the shell printer are fields of
  a `World`, about which nothing is assumed.
-/

namespace Telepath

/-! ## Go strings -/

/-- Go `string` (and `[]byte`): a sequence of bytes, one `Char` per byte. -/
abbrev GoString := List Char

/-- The newline byte. -/
def nl : Char := Char.ofNat 10

/-- The byte `=`. -/
def eqSign : Char := '='

/-- Go `strings.HasPrefix s sep`. -/
def HasPrefix : GoString → GoString → Bool
  | _, [] => true
  | [], _ :: _ => false
  | c :: s, d :: sep => c == d && HasPrefix s sep

/-- Go `strings.Index s sep`: the position of the first occurrence of `sep` in
`s`; Go's `-1` is `none`. -/
def Index : GoString → GoString → Option Nat
  | [], sep => if HasPrefix [] sep then some 0 else none
  | c :: s, sep =>
    if HasPrefix (c :: s) sep then some 0
    else (Index s sep).map (· + 1)

/-- The loop of Go `strings.genSplit` (with `sepSave = 0`): at most `k` more
cuts are made, the rest of the string is the last piece. -/
def genSplitLoop (sep : GoString) : Nat → GoString → List GoString
  | 0, s => [s]
  | k + 1, s =>
    match Index s sep with
    | none => [s]
    | some m => s.take m :: genSplitLoop sep k (s.drop (m + sep.length))

/-- Go `strings.SplitN s sep n` for a non-empty separator and `n > 0`: `n` is
capped at `len(s) + 1`, then `n - 1` cuts are attempted.  (`n = 0` gives the
empty slice; an empty separator and a negative `n` are not used by the
program.) -/
def SplitN (s sep : GoString) (n : Nat) : List GoString :=
  if n = 0 then []
  else genSplitLoop sep (min n (s.length + 1) - 1) s

/-! ## Panics and slices -/

deriving instance DecidableEq for Except

/-- A Go run-time panic. -/
inductive Panic where
  /-- The text `index out of range [i] with length n`. -/
  | indexOutOfRange (i : Int) (n : Nat)
  deriving DecidableEq, Repr

/-- Go slice indexing `s[i]` with its bounds check. -/
def sliceAt {α : Type} (s : List α) (i : Int) : Except Panic α :=
  if i < 0 then .error (.indexOutOfRange i s.length)
  else
    match s.get? i.toNat with
    | some x => .ok x
    | none => .error (.indexOutOfRange i s.length)

/-! ## Go maps -/

/-- Go `map[string]V`: an association list; `GoMap.set` keeps the keys
distinct. -/
abbrev GoMap (V : Type) := List (GoString × V)

/-- Go `m[k] = v`. -/
def GoMap.set {V : Type} : GoMap V → GoString → V → GoMap V
  | [], k, v => [(k, v)]
  | (k', v') :: m, k, v =>
    if k' = k then (k, v) :: m else (k', v') :: GoMap.set m k v

/-- Go `m[k]` with the presence flag. -/
def GoMap.get {V : Type} : GoMap V → GoString → Option V
  | [], _ => none
  | (k', v) :: m, k => if k' = k then some v else GoMap.get m k

/-- The keys of a map. -/
def GoMap.keys {V : Type} (m : GoMap V) : List GoString :=
  m.map Prod.fst

/-! ## `parseExtraVars` (common/tsh.go) -/

/-- The part of `CLIConf` read by the template pipeline. -/
structure CLIConf where
  IncludeFile : GoString := []
  IncludePath : GoString := []
  ExtraVars : List GoString := []

/-- The body of the `for _, v := range cf.ExtraVars` loop of
`parseExtraVars`, run over the remaining entries. -/
def parseExtraVarsLoop : List GoString → GoMap GoString → Except Panic (GoMap GoString)
  | [], vars => .ok vars
  | v :: rest, vars =>
    let s := SplitN v [eqSign] 2
    match sliceAt s 0 with
    | .error p => .error p
    | .ok key =>
      match sliceAt s 1 with
      | .error p => .error p
      | .ok value => parseExtraVarsLoop rest (vars.set key value)

/-- The function `parseExtraVars`: a fresh map, filled by the loop. -/
def parseExtraVars (cf : CLIConf) : Except Panic (GoMap GoString) :=
  parseExtraVarsLoop cf.ExtraVars []

/-! ### What the specification says about an entry -/

/-- The text before the first `=` of an entry. -/
def keyOf (e : GoString) : GoString := e.takeWhile (· ≠ eqSign)

/-- The text after the first `=` of an entry. -/
def valueOf (e : GoString) : GoString := (e.dropWhile (· ≠ eqSign)).drop 1

/-- The last entry of the list whose key is `k`, if there is one. -/
def lastEntry (entries : List GoString) (k : GoString) : Option GoString :=
  (entries.filter (fun e => keyOf e = k)).getLast?

/-! ## Standard output and termination -/

/-- Go `fmt.Println`: the operands separated by single spaces, then a newline.
An `error` operand is printed as its message. -/
def Println : List GoString → GoString
  | [] => [nl]
  | [a] => a ++ [nl]
  | a :: b :: rest => a ++ ' ' :: Println (b :: rest)

/-- One write to standard output, named after the call that makes it. -/
inductive Write where
  /-- A line written by `fmt.Println` (the text includes the final newline). -/
  | Println (line : GoString)
  /-- The formatted script written by `out.Fprint(os.Stdout, sh)`. -/
  | Fprint (text : GoString)
  /-- The rendered buffer written by `buf.WriteTo(os.Stdout)`. -/
  | WriteTo (text : GoString)
  deriving DecidableEq, Repr

/-- How a run ends. -/
inductive Exit where
  /-- The function returned to its caller. -/
  | returned
  /-- The call `os.Exit(code)`. -/
  | osExit (code : Nat)
  /-- An unrecovered run-time panic. -/
  | panicked (p : Panic)
  deriving DecidableEq, Repr

/-- The exit status of the process: `0` when `main` returns, the argument of
`os.Exit`, and `2` for an unrecovered panic (the Go runtime's status). -/
def Exit.code : Exit → Nat
  | .returned => 0
  | .osExit c => c
  | .panicked _ => 2

/-- What a run did: the writes to standard output, in order, and how it
ended. -/
structure Outcome where
  stdout : List Write
  exit : Exit
  deriving DecidableEq, Repr

/-- The texts of the script or rendered-template writes of a run (everything
written to standard output that is not a `fmt.Println` line). -/
def Outcome.scriptWrites (o : Outcome) : List GoString :=
  o.stdout.filterMap fun w =>
    match w with
    | .Println _ => none
    | .Fprint t => some t
    | .WriteTo t => some t

/-! ## The file system and `ioutil.ReadFile` -/

/-- What a path names. -/
inductive FsNode where
  /-- Nothing. -/
  | absent
  /-- A readable regular file with this content. -/
  | file (content : GoString)
  /-- A directory with these entries. -/
  | dir (entries : List GoString)
  deriving DecidableEq, Repr

/-- The file system: what each path names. -/
abbrev FileSystem := GoString → FsNode

/-- Go `ioutil.ReadFile`.  The `error` is modelled by its message, the text of
the `*os.PathError`: the operation, the path as given, the cause.  Reading a
directory fails (`read` returns `EISDIR`). -/
def ReadFile (fs : FileSystem) (path : GoString) : Except GoString GoString :=
  match fs path with
  | .file content => .ok content
  | .absent => .error ("open ".toList ++ path ++ ": no such file or directory".toList)
  | .dir _ => .error ("read ".toList ++ path ++ ": is a directory".toList)

/-! ## Template sets (`text/template`) -/

/-- Go `*template.Template` as seen by `listTemplates`: a name and a parse
tree. -/
structure Template (Tree : Type) where
  name : GoString
  tree : Tree

/-- A template handle together with the registry it shares with its
associated templates (the field `common.tmpl`, a `map[string]*Template` in
which every template is stored under its own name). -/
structure TemplateSet (Tree : Type) where
  /-- The name of the template this handle denotes. -/
  name : GoString
  /-- The registry `common.tmpl`. -/
  tmpl : GoMap (Template Tree)
  /-- A map has distinct keys. -/
  keysNodup : (GoMap.keys tmpl).Nodup
  /-- Every template is registered under its own name. -/
  nameEq : ∀ p ∈ tmpl, p.2.name = p.1

/-- Go `template.New(name)`: a handle with an empty registry. -/
def TemplateSet.New (Tree : Type) (name : GoString) : TemplateSet Tree :=
  { name := name, tmpl := [], keysNodup := List.nodup_nil, nameEq := by simp }

/-- Go `t.New(name)`: another handle onto the same registry. -/
def TemplateSet.newAssociated {Tree : Type} (t : TemplateSet Tree) (name : GoString) :
    TemplateSet Tree :=
  { t with name := name }

/-- The names registered in the set. -/
def TemplateSet.names {Tree : Type} (t : TemplateSet Tree) : List GoString :=
  GoMap.keys t.tmpl

/-- The slices `t.Templates()` may return.  The method appends the values of
the registry map in the order of a `range` over the map, which Go leaves
unspecified and varies from one iteration to the next: any arrangement of the
registered templates is a possible result. -/
def IsTemplates {Tree : Type} (t : TemplateSet Tree) (ts : List (Template Tree)) : Prop :=
  ts.Perm (t.tmpl.map Prod.snd)

/-- The loop of the `listTemplates` template function over the slice returned
by `tmpl.Templates()`. -/
def listTemplatesLoop {Tree : Type} : List (Template Tree) → GoString → GoString
  | [], templateList => templateList
  | r :: rest, templateList => listTemplatesLoop rest (templateList ++ r.name ++ [nl])

/-- The `listTemplates` template function, given the slice `templates` that
its call of `tmpl.Templates()` returned. -/
def listTemplates {Tree : Type} (templates : List (Template Tree)) : GoString :=
  listTemplatesLoop templates []

/-- The number of lines of a text: its newline bytes. -/
def lineCount (s : GoString) : Nat := s.count nl

/-! ## The world of a run -/

/-- The surroundings of a run: the file system and the library functions whose
results the program only passes on.  `Tree` is the template parse tree, `AST`
the shell syntax tree.  An `error` is modelled by its message. -/
structure World (Tree AST : Type) where
  /-- The file system. -/
  fs : FileSystem
  /-- Go `filepath.Base`. -/
  Base : GoString → GoString
  /-- Go `t.Parse(text)`: parses `text` as the body of the template the handle
  denotes and registers the templates it defines. -/
  Parse : TemplateSet Tree → GoString → Except GoString (TemplateSet Tree)
  /-- Go `t.ExecuteTemplate(buf, name, data)`: the bytes written to `buf` and
  the error, if any. -/
  ExecuteTemplate : TemplateSet Tree → GoString → GoMap GoString → GoString × Option GoString
  /-- Go `syntax.Parse(buf, "", syntax.ParseComments)` on the buffer content. -/
  shParse : GoString → Except GoString AST
  /-- The text `syntax.PrintConfig` with the given `Spaces` prints for a
  tree. -/
  Fprint : Nat → AST → GoString

/-- The loop of Go `template.parseFiles`: each file is read and parsed into
the template named after its base name. -/
def parseFilesLoop {Tree AST : Type} (w : World Tree AST) :
    List GoString → TemplateSet Tree → Except GoString (TemplateSet Tree)
  | [], t => .ok t
  | filename :: rest, t =>
    match ReadFile w.fs filename with
    | .error err => .error err
    | .ok b =>
      let name := w.Base filename
      let tmpl := if name = t.name then t else t.newAssociated name
      match w.Parse tmpl b with
      | .error err => .error err
      | .ok t' => parseFilesLoop w rest (t'.newAssociated t.name)

/-- The message of `template.parseFiles` for an empty list of files. -/
def noFilesNamed : GoString := "template: no files named in call to ParseFiles".toList

/-- Go `t.ParseFiles(filenames...)`. -/
def ParseFiles {Tree AST : Type} (w : World Tree AST) (t : TemplateSet Tree)
    (filenames : List GoString) : Except GoString (TemplateSet Tree) :=
  match filenames with
  | [] => .error noFilesNamed
  | _ :: _ => parseFilesLoop w filenames t

/-- Go `template.ParseFiles(filenames...)`: the template is created with the
base name of the first file. -/
def templateParseFiles {Tree AST : Type} (w : World Tree AST)
    (filenames : List GoString) : Except GoString (TemplateSet Tree) :=
  match filenames with
  | [] => .error noFilesNamed
  | filename :: _ => parseFilesLoop w filenames (TemplateSet.New Tree (w.Base filename))

/-! ## `parseTemplate` (common/tsh.go) -/

/-- The name of the root template. -/
def mainName : GoString := "__main__".toList

/-- The first operands of the `fmt.Println` calls of `parseTemplate`, one per
stage, in the order of the stages. -/
def msgIncRead : GoString := "# Aborting due incfile read error:".toList
/-- The text printed when the main template cannot be read. -/
def msgFileRead : GoString := "# Aborting due file read error:".toList
/-- The text printed when the composed source does not parse. -/
def msgParse : GoString := "# Error parsing main file:".toList
/-- The text printed when the include path cannot be parsed. -/
def msgIncPath : GoString := "# error parsing include path files:".toList
/-- The text printed when the execution of the template fails. -/
def msgExecute : GoString := "# Aborting due to execute error:".toList
/-- The text printed when the rendered text is not a shell script. -/
def msgShell : GoString := "# Aborting due to shell parse error:".toList

/-- The calls `fmt.Println(msg, err)` and `os.Exit(1)` of a failed stage. -/
def abort (msg err : GoString) : Outcome :=
  { stdout := [.Println (Println [msg, err])], exit := .osExit 1 }

/-- The statement `if incFile[len(incFile)-1] != '\n'` with its `append`. -/
def normalizePrelude (incFile : GoString) : Except Panic GoString :=
  match sliceAt incFile ((incFile.length : Int) - 1) with
  | .error p => .error p
  | .ok last => if last ≠ nl then .ok (incFile ++ [nl]) else .ok incFile

/-- The block `if cf.IncludeFile != ""` of `parseTemplate`: the value of
`incFile` after it (empty when no include file is configured), unless the run
ends inside the block. -/
def readInclude {Tree AST : Type} (w : World Tree AST) (cf : CLIConf) :
    Except Outcome GoString :=
  if cf.IncludeFile ≠ [] then
    match ReadFile w.fs cf.IncludeFile with
    | .error err => .error (abort msgIncRead err)
    | .ok incFile =>
      match normalizePrelude incFile with
      | .error p => .error { stdout := [], exit := .panicked p }
      | .ok incFile => .ok incFile
  else .ok []

/-- The part of `parseTemplate` that reads the include file and the main
template: its result is the text `string(incFile) + string(mainFile)` handed
to `tmpl.Parse`, unless the run ends before. -/
def templateSource {Tree AST : Type} (w : World Tree AST) (tmplfile : GoString)
    (cf : CLIConf) : Except Outcome GoString :=
  match readInclude w cf with
  | .error o => .error o
  | .ok incFile =>
    match ReadFile w.fs tmplfile with
    | .error err => .error (abort msgFileRead err)
    | .ok mainFile => .ok (incFile ++ mainFile)

/-- The block `if cf.IncludePath != ""` of `parseTemplate`: the call
`tmpl.ParseFiles(cf.IncludePath)`, made with the option's value as the one
file name. -/
def addIncludePath {Tree AST : Type} (w : World Tree AST) (cf : CLIConf)
    (tmpl : TemplateSet Tree) : Except GoString (TemplateSet Tree) :=
  if cf.IncludePath ≠ [] then ParseFiles w tmpl [cf.IncludePath] else .ok tmpl

/-- The part of `parseTemplate` after the main template is parsed: the include
path, the execution, the shell parse and the printing. -/
def renderAndPrint {Tree AST : Type} (w : World Tree AST) (cf : CLIConf)
    (v : GoMap GoString) (tmpl : TemplateSet Tree) : Outcome :=
  match addIncludePath w cf tmpl with
  | .error err => abort msgIncPath err
  | .ok tmpl =>
    match w.ExecuteTemplate tmpl mainName v with
    | (_, some err) => abort msgExecute err
    | (buf, none) =>
      match w.shParse buf with
      | .error err => abort msgShell err
      | .ok sh => { stdout := [.Fprint (w.Fprint 2 sh)], exit := .returned }

/-- The function `parseTemplate`. -/
def parseTemplate {Tree AST : Type} (w : World Tree AST) (tmplfile : GoString)
    (cf : CLIConf) : Outcome :=
  let tmpl := TemplateSet.New Tree mainName
  match parseExtraVars cf with
  | .error p => { stdout := [], exit := .panicked p }
  | .ok v =>
    match templateSource w tmplfile cf with
    | .error o => o
    | .ok source =>
      match w.Parse tmpl source with
      | .error err => abort msgParse err
      | .ok tmpl => renderAndPrint w cf v tmpl

/-! ## `main` (cmd/main.go) -/

/-- The first operand of both `fmt.Println` calls of `main`. -/
def msgError : GoString := "# There was an error:".toList
/-- The text printed by the deferred function of `main`. -/
def msgUnhandled : GoString := "An unhandled exception was caught.".toList

/-- The map `e` built by `main`. -/
def mainVars : GoMap GoString :=
  (GoMap.set (GoMap.set [] "USERNAME".toList "$( who | awk '\x7b print $1 \x7d' )".toList)
    "HOSTNAME".toList "$( hostname -s )".toList)

/-- The body of `main`, before its deferred function runs.  `Args` is
`os.Args`. -/
def mainBody {Tree AST : Type} (w : World Tree AST) (Args : List GoString) : Outcome :=
  match sliceAt Args 1 with
  | .error p => { stdout := [], exit := .panicked p }
  | .ok file =>
    match templateParseFiles w [file] with
    | .error err => abort msgError err
    | .ok t =>
      match w.ExecuteTemplate t t.name mainVars with
      | (_, some err) => { stdout := [.Println (Println [msgError, err])], exit := .returned }
      | (buf, none) => { stdout := [.WriteTo buf], exit := .returned }

/-- The function `main` of cmd/main.go: the body, then the deferred function,
which recovers a panic and reports it.  `os.Exit` does not run deferred
functions. -/
def main {Tree AST : Type} (w : World Tree AST) (Args : List GoString) : Outcome :=
  match mainBody w Args with
  | { stdout := out, exit := .panicked _ } =>
    { stdout := out ++ [.Println (Println [msgUnhandled])], exit := .returned }
  | o => o

/-! ## Stage outcomes, as the specification speaks of them -/

/-- A stage of the pipeline fails with the error `err`, all stages before it
having succeeded; `msg` is the text `parseTemplate` prints for that stage.
The stages are, in order: the include-file read, the root-file read, the
template parse, the include-path parse, the template execution, the shell
parse.  `v` is the variable table built before the first stage. -/
def StageFails {Tree AST : Type} (w : World Tree AST) (tmplfile : GoString)
    (cf : CLIConf) (v : GoMap GoString) (msg err : GoString) : Prop :=
  (msg = msgIncRead ∧ cf.IncludeFile ≠ [] ∧ ReadFile w.fs cf.IncludeFile = .error err) ∨
  (msg = msgFileRead ∧ ∃ incFile, readInclude w cf = .ok incFile ∧
    ReadFile w.fs tmplfile = .error err) ∨
  (msg = msgParse ∧ ∃ source, templateSource w tmplfile cf = .ok source ∧
    w.Parse (TemplateSet.New Tree mainName) source = .error err) ∨
  (msg = msgIncPath ∧ ∃ source t, templateSource w tmplfile cf = .ok source ∧
    w.Parse (TemplateSet.New Tree mainName) source = .ok t ∧
    addIncludePath w cf t = .error err) ∨
  (msg = msgExecute ∧ ∃ source t t' buf, templateSource w tmplfile cf = .ok source ∧
    w.Parse (TemplateSet.New Tree mainName) source = .ok t ∧
    addIncludePath w cf t = .ok t' ∧
    w.ExecuteTemplate t' mainName v = (buf, some err)) ∨
  (msg = msgShell ∧ ∃ source t t' buf, templateSource w tmplfile cf = .ok source ∧
    w.Parse (TemplateSet.New Tree mainName) source = .ok t ∧
    addIncludePath w cf t = .ok t' ∧
    w.ExecuteTemplate t' mainName v = (buf, none) ∧
    w.shParse buf = .error err)

/-- Every stage succeeded, each on what the run hands to it: the variable table
was built, the files were read and composed, the composed source was parsed,
the include path was added, the execution wrote the complete rendered text
`buf` without error, and the shell parser returned `sh` for `buf`. -/
def StagesSucceed {Tree AST : Type} (w : World Tree AST) (tmplfile : GoString)
    (cf : CLIConf) (sh : AST) : Prop :=
  ∃ v source t t' buf, parseExtraVars cf = .ok v ∧
    templateSource w tmplfile cf = .ok source ∧
    w.Parse (TemplateSet.New Tree mainName) source = .ok t ∧
    addIncludePath w cf t = .ok t' ∧
    w.ExecuteTemplate t' mainName v = (buf, none) ∧
    w.shParse buf = .ok sh

/-- An include file is configured and is read successfully with no bytes. -/
def EmptyInclude {Tree AST : Type} (w : World Tree AST) (cf : CLIConf) : Prop :=
  cf.IncludeFile ≠ [] ∧ ReadFile w.fs cf.IncludeFile = .ok []

/-! ## Worlds for the examples -/

/-- The file system that holds the listed paths and nothing else. -/
def fsOf (files : GoMap FsNode) : FileSystem := fun path =>
  match GoMap.get files path with
  | some node => node
  | none => .absent

/-- A world in which every library call succeeds: the template engine renders
the text `rendered`, the shell parser accepts any text and the printer prints
it back. -/
def calmWorld (files : GoMap FsNode) (rendered : GoString) : World Unit GoString where
  fs := fsOf files
  Base := id
  Parse := fun t _ => .ok t
  ExecuteTemplate := fun _ _ _ => (rendered, none)
  shParse := fun buf => .ok buf
  Fprint := fun _ sh => sh

/-- A world in which the template parses and its execution fails with the
error `err` after writing `written` to the buffer. -/
def execFailWorld (files : GoMap FsNode) (written err : GoString) : World Unit GoString where
  fs := fsOf files
  Base := id
  Parse := fun t _ => .ok t
  ExecuteTemplate := fun _ _ _ => (written, some err)
  shParse := fun buf => .ok buf
  Fprint := fun _ sh => sh

/-- The text made of the given names, each followed by one newline. -/
def nameLines (names : List GoString) : GoString :=
  (names.map (fun name => name ++ [nl])).flatten

/-- A template set with the root template and a template `helper`. -/
def twoTemplates : TemplateSet Unit where
  name := mainName
  tmpl := [(mainName, { name := mainName, tree := () }),
    ("helper".toList, { name := "helper".toList, tree := () })]
  keysNodup := by decide
  nameEq := by simp

/-- A template set with the root template and a template whose name `a⏎b`
holds a newline (as after parsing a `define "a\nb"` action). -/
def newlineNamed : TemplateSet Unit where
  name := mainName
  tmpl := [(mainName, { name := mainName, tree := () }),
    ("a\nb".toList, { name := "a\nb".toList, tree := () })]
  keysNodup := by decide
  nameEq := by simp

/-! # Theorems -/

/-! ## Splitting an entry -/

theorem HasPrefix_single (c : Char) (s : GoString) :
    HasPrefix (c :: s) [eqSign] = (c == eqSign) := by
  cases s <;> simp [HasPrefix]

theorem Index_of_mem (e : GoString) (h : eqSign ∈ e) :
    Index e [eqSign] = some (keyOf e).length := by
  induction e with
  | nil => simp at h
  | cons c s ih =>
    by_cases hc : c = eqSign
    · subst hc
      simp [Index, HasPrefix_single, keyOf]
    · have hs : eqSign ∈ s := by
        rcases List.mem_cons.mp h with h | h
        · exact absurd h.symm hc
        · exact h
      have ih' := ih hs
      simp only [keyOf] at ih'
      simp [Index, HasPrefix_single, hc, ih', keyOf, List.takeWhile_cons]

theorem Index_of_not_mem (e : GoString) (h : eqSign ∉ e) :
    Index e [eqSign] = none := by
  induction e with
  | nil => simp [Index, HasPrefix]
  | cons c s ih =>
    have hc : c ≠ eqSign := fun hc => h (by simp [hc])
    have hs : eqSign ∉ s := fun hs => h (List.mem_cons_of_mem _ hs)
    simp [Index, HasPrefix_single, hc, ih hs]

theorem take_keyOf_length (e : GoString) : e.take (keyOf e).length = keyOf e := by
  induction e with
  | nil => simp [keyOf]
  | cons c s ih =>
    by_cases hc : c = eqSign
    · simp [keyOf, hc]
    · simpa [keyOf, List.takeWhile_cons, hc] using ih

theorem drop_keyOf_length (e : GoString) :
    e.drop ((keyOf e).length + 1) = valueOf e := by
  induction e with
  | nil => simp [keyOf, valueOf]
  | cons c s ih =>
    by_cases hc : c = eqSign
    · simp [keyOf, valueOf, hc]
    · simpa [keyOf, valueOf, List.takeWhile_cons, List.dropWhile_cons, hc] using ih

theorem SplitN_of_mem (e : GoString) (h : eqSign ∈ e) :
    SplitN e [eqSign] 2 = [keyOf e, valueOf e] := by
  have hlen : 0 < e.length := List.length_pos_of_mem h
  have hmin : min 2 (e.length + 1) - 1 = 1 := by omega
  simp [SplitN, hmin, genSplitLoop, Index_of_mem e h, take_keyOf_length, drop_keyOf_length]

theorem SplitN_of_not_mem (e : GoString) (h : eqSign ∉ e) :
    SplitN e [eqSign] 2 = [e] := by
  unfold SplitN
  simp only [show (2 : Nat) ≠ 0 by decide, if_false]
  cases hk : min 2 (e.length + 1) - 1 with
  | zero => simp [genSplitLoop]
  | succ k => simp [genSplitLoop, Index_of_not_mem e h]

theorem entry_eq_key_value (e : GoString) (h : eqSign ∈ e) :
    e = keyOf e ++ eqSign :: valueOf e ∧ eqSign ∉ keyOf e := by
  constructor
  · induction e with
    | nil => simp at h
    | cons c s ih =>
      by_cases hc : c = eqSign
      · simp [keyOf, valueOf, hc]
      · have hs : eqSign ∈ s := by
          rcases List.mem_cons.mp h with h | h
          · exact absurd h.symm hc
          · exact h
        simpa [keyOf, valueOf, List.takeWhile_cons, List.dropWhile_cons, hc] using ih hs
  · intro hmem
    have := List.mem_takeWhile_imp hmem
    simp at this

/-! ## Go maps -/

theorem GoMap.get_set {V : Type} (m : GoMap V) (k k' : GoString) (v : V) :
    GoMap.get (GoMap.set m k v) k' = if k' = k then some v else GoMap.get m k' := by
  induction m with
  | nil =>
    by_cases h : k = k'
    · subst h
      simp only [GoMap.set, GoMap.get, if_true]
    · have h' : ¬ k' = k := fun e => h e.symm
      simp only [GoMap.set, GoMap.get, if_neg h, if_neg h']
  | cons p m ih =>
    obtain ⟨a, b⟩ := p
    by_cases ha : a = k
    · subst ha
      by_cases h : a = k'
      · subst h
        simp only [GoMap.set, GoMap.get, if_true]
      · have h' : ¬ k' = a := fun e => h e.symm
        simp only [GoMap.set, GoMap.get, if_true, if_neg h, if_neg h']
    · by_cases h : a = k'
      · subst h
        have h' : ¬ a = k := ha
        simp only [GoMap.set, GoMap.get, if_neg ha, if_true]
      · simp only [GoMap.set, GoMap.get, if_neg ha, if_neg h, ih]

theorem GoMap.keys_cons {V : Type} (p : GoString × V) (m : GoMap V) :
    GoMap.keys (p :: m) = p.1 :: GoMap.keys m := rfl

theorem GoMap.mem_keys_set {V : Type} (m : GoMap V) (k k' : GoString) (v : V) :
    k' ∈ GoMap.keys (GoMap.set m k v) ↔ k' = k ∨ k' ∈ GoMap.keys m := by
  induction m with
  | nil =>
    simp only [GoMap.set, GoMap.keys_cons, List.mem_cons]
  | cons p m ih =>
    obtain ⟨a, b⟩ := p
    by_cases ha : a = k
    · subst ha
      simp only [GoMap.set, if_true, GoMap.keys_cons, List.mem_cons]
      tauto
    · simp only [GoMap.set, if_neg ha, GoMap.keys_cons, List.mem_cons, ih]
      tauto

theorem GoMap.nodup_keys_set {V : Type} (m : GoMap V) (k : GoString) (v : V)
    (h : (GoMap.keys m).Nodup) : (GoMap.keys (GoMap.set m k v)).Nodup := by
  induction m with
  | nil =>
    simp only [GoMap.set, GoMap.keys_cons]
    exact List.nodup_cons.mpr ⟨List.not_mem_nil _, List.nodup_nil⟩
  | cons p m ih =>
    obtain ⟨a, b⟩ := p
    rw [GoMap.keys_cons] at h
    have h' := List.nodup_cons.mp h
    by_cases ha : a = k
    · subst ha
      simp only [GoMap.set, if_true, GoMap.keys_cons]
      exact h
    · simp only [GoMap.set, if_neg ha, GoMap.keys_cons]
      refine List.nodup_cons.mpr ⟨?_, ih h'.2⟩
      rw [GoMap.mem_keys_set]
      rintro (h1 | h1)
      · exact ha h1
      · exact h'.1 h1

/-! ## `parseExtraVars` -/

theorem lastEntry_cons (e : GoString) (rest : List GoString) (k : GoString) :
    lastEntry (e :: rest) k =
      match lastEntry rest k with
      | some e' => some e'
      | none => if keyOf e = k then some e else none := by
  unfold lastEntry
  by_cases h : keyOf e = k
  · simp only [List.filter_cons, h, decide_True, if_true]
    cases hr : List.filter (fun e => decide (keyOf e = k)) rest with
    | nil => simp
    | cons a l =>
      rw [List.getLast?_cons_cons]
      cases hl : (a :: l).getLast? with
      | some x => rfl
      | none => simp at hl
  · simp only [List.filter_cons, h, decide_False, if_false]
    cases hr : (List.filter (fun e => decide (keyOf e = k)) rest).getLast? <;> simp [hr]

theorem parseExtraVarsLoop_spec (entries : List GoString)
    (h : ∀ e ∈ entries, eqSign ∈ e) (vars : GoMap GoString) :
    ∃ out, parseExtraVarsLoop entries vars = .ok out ∧
      (∀ k, GoMap.get out k =
        match lastEntry entries k with
        | some e => some (valueOf e)
        | none => GoMap.get vars k) ∧
      (∀ k, k ∈ GoMap.keys out ↔ k ∈ GoMap.keys vars ∨ ∃ e ∈ entries, keyOf e = k) ∧
      ((GoMap.keys vars).Nodup → (GoMap.keys out).Nodup) := by
  induction entries generalizing vars with
  | nil =>
    exact ⟨vars, rfl, by simp [lastEntry], by simp, id⟩
  | cons e rest ih =>
    have he : eqSign ∈ e := h e (List.mem_cons_self _ _)
    have hrest : ∀ e' ∈ rest, eqSign ∈ e' := fun e' h' => h e' (List.mem_cons_of_mem _ h')
    obtain ⟨out, hout, hget, hkeys, hnd⟩ := ih hrest (GoMap.set vars (keyOf e) (valueOf e))
    refine ⟨out, ?_, ?_, ?_, ?_⟩
    · simp [parseExtraVarsLoop, SplitN_of_mem e he, sliceAt, hout]
    · intro k
      rw [hget k, lastEntry_cons]
      cases hl : lastEntry rest k with
      | some e' => rfl
      | none =>
        by_cases hk : keyOf e = k
        · simp [GoMap.get_set, hk]
        · have hk' : ¬ k = keyOf e := fun h' => hk h'.symm
          simp [GoMap.get_set, hk, hk']
    · intro k
      rw [hkeys k, GoMap.mem_keys_set]
      simp only [List.mem_cons, exists_eq_or_imp]
      constructor
      · rintro ((h1 | h1) | h1)
        · exact Or.inr (Or.inl h1.symm)
        · exact Or.inl h1
        · exact Or.inr (Or.inr h1)
      · rintro (h1 | h1 | h1)
        · exact Or.inl (Or.inr h1)
        · exact Or.inl (Or.inl h1.symm)
        · exact Or.inr h1
    · intro hv
      exact hnd (GoMap.nodup_keys_set vars _ _ hv)

/-- C1. For every list of entries that all contain a `=`, `parseExtraVars`
returns a table; its keys are pairwise distinct and are exactly the texts
before the first `=` of the entries; each key is mapped to the text after the
first `=` of the last entry with that key; and key and value are the two sides
of the first `=` of the entry (the key holds no `=`, the value keeps every
later `=`). -/
theorem parseExtraVars_last_write_wins (cf : CLIConf)
    (h : ∀ e ∈ cf.ExtraVars, eqSign ∈ e) :
    ∃ vars, parseExtraVars cf = .ok vars ∧
      (GoMap.keys vars).Nodup ∧
      (∀ k, k ∈ GoMap.keys vars ↔ ∃ e ∈ cf.ExtraVars, keyOf e = k) ∧
      (∀ k, GoMap.get vars k = (lastEntry cf.ExtraVars k).map valueOf) ∧
      (∀ e ∈ cf.ExtraVars, e = keyOf e ++ eqSign :: valueOf e ∧ eqSign ∉ keyOf e) := by
  obtain ⟨out, hout, hget, hkeys, hnd⟩ := parseExtraVarsLoop_spec cf.ExtraVars h []
  refine ⟨out, hout, hnd (by simp [GoMap.keys]), ?_, ?_, ?_⟩
  · intro k
    rw [hkeys k]
    simp [GoMap.keys]
  · intro k
    rw [hget k]
    cases lastEntry cf.ExtraVars k <;> simp [GoMap.get]
  · intro e he
    exact entry_eq_key_value e (h e he)

/-- The example of C1: `A=1`, `B=x=y`, `A=2` give `A` mapped to `2` and `B`
mapped to `x=y`. -/
theorem parseExtraVars_last_write_wins_witness :
    (∀ e ∈ ["A=1".toList, "B=x=y".toList, "A=2".toList], eqSign ∈ e) ∧
    parseExtraVars { ExtraVars := ["A=1".toList, "B=x=y".toList, "A=2".toList] }
      = .ok [("A".toList, "2".toList), ("B".toList, "x=y".toList)] ∧
    ∃ vars, parseExtraVars { ExtraVars := ["A=1".toList, "B=x=y".toList, "A=2".toList] }
        = .ok vars ∧
      (GoMap.keys vars).Nodup ∧
      (∀ k, k ∈ GoMap.keys vars ↔
        ∃ e ∈ ["A=1".toList, "B=x=y".toList, "A=2".toList], keyOf e = k) ∧
      (∀ k, GoMap.get vars k =
        (lastEntry ["A=1".toList, "B=x=y".toList, "A=2".toList] k).map valueOf) ∧
      (∀ e ∈ ["A=1".toList, "B=x=y".toList, "A=2".toList],
        e = keyOf e ++ eqSign :: valueOf e ∧ eqSign ∉ keyOf e) :=
  ⟨by decide, by decide,
    parseExtraVars_last_write_wins
      { ExtraVars := ["A=1".toList, "B=x=y".toList, "A=2".toList] } (by decide)⟩

/-- C2. For the single entry `foo`, which holds no `=`, `parseExtraVars`
neither returns a table nor reports the entry: it panics with
`index out of range [1] with length 1`, a text that does not name the entry,
and the run of `parseTemplate` ends in that panic (exit status 2) with nothing
written. -/
theorem parseExtraVars_no_eq_panics :
    parseExtraVars { ExtraVars := ["foo".toList] } = .error (.indexOutOfRange 1 1) ∧
    parseTemplate (calmWorld [("main.tpl".toList, .file "echo hi\n".toList)] "echo hi\n".toList)
        "main.tpl".toList { ExtraVars := ["foo".toList] }
      = { stdout := [], exit := .panicked (.indexOutOfRange 1 1) } ∧
    (Exit.panicked (.indexOutOfRange 1 1)).code = 2 := by
  refine ⟨by decide, by decide, by decide⟩

/-- Every list with an entry that holds no `=` makes the loop of
`parseExtraVars` panic at the first such entry, with the same index error
whatever the entry is. -/
theorem parseExtraVarsLoop_panics (pre : List GoString) (bad : GoString)
    (post : List GoString) (hpre : ∀ e ∈ pre, eqSign ∈ e) (hbad : eqSign ∉ bad)
    (vars : GoMap GoString) :
    parseExtraVarsLoop (pre ++ bad :: post) vars = .error (.indexOutOfRange 1 1) := by
  induction pre generalizing vars with
  | nil => simp [parseExtraVarsLoop, SplitN_of_not_mem bad hbad, sliceAt]
  | cons e rest ih =>
    have he : eqSign ∈ e := hpre e (List.mem_cons_self _ _)
    have hrest : ∀ e' ∈ rest, eqSign ∈ e' := fun e' h' => hpre e' (List.mem_cons_of_mem _ h')
    simp [parseExtraVarsLoop, SplitN_of_mem e he, sliceAt, ih hrest]

/-! ## The prelude -/

theorem sliceAt_last {α : Type} (s : List α) (h : s ≠ []) :
    sliceAt s ((s.length : Int) - 1) = .ok (s.getLast h) := by
  have hlen : 0 < s.length := List.length_pos.mpr h
  have hneg : ¬ ((s.length : Int) - 1 < 0) := by omega
  have hnat : ((s.length : Int) - 1).toNat = s.length - 1 := by omega
  have hget : s.get? (s.length - 1) = some (s.getLast h) := by
    rw [List.get?_eq_getElem?, ← List.getLast?_eq_getElem?, List.getLast?_eq_getLast _ h]
  simp only [sliceAt, if_neg hneg, hnat, hget]

theorem normalizePrelude_of_ne_nil (p : GoString) (h : p ≠ []) :
    normalizePrelude p = .ok (if p.getLast? = some nl then p else p ++ [nl]) := by
  unfold normalizePrelude
  rw [sliceAt_last p h, List.getLast?_eq_getLast _ h]
  by_cases hl : p.getLast h = nl
  · simp [hl]
  · simp [hl]

/-- C3. With the root file read as `r`: when no include file is configured the
source handed to the template parser is exactly `r`; when an include file is
configured and read as a non-empty text `p`, the source is `p ++ r` if `p`
ends with a newline and `p`, one newline, `r` otherwise.  The text so composed
is the argument of the one call of `tmpl.Parse` in `parseTemplate`. -/
theorem templateSource_composition {Tree AST : Type} (w : World Tree AST)
    (tmplfile : GoString) (cf : CLIConf) (r : GoString)
    (hr : ReadFile w.fs tmplfile = .ok r) :
    (cf.IncludeFile = [] → templateSource w tmplfile cf = .ok r) ∧
    (∀ p, cf.IncludeFile ≠ [] → ReadFile w.fs cf.IncludeFile = .ok p → p ≠ [] →
      templateSource w tmplfile cf =
        .ok (if p.getLast? = some nl then p ++ r else p ++ [nl] ++ r)) ∧
    (∀ v source, parseExtraVars cf = .ok v → templateSource w tmplfile cf = .ok source →
      parseTemplate w tmplfile cf =
        match w.Parse (TemplateSet.New Tree mainName) source with
        | .error err => abort msgParse err
        | .ok tmpl => renderAndPrint w cf v tmpl) := by
  refine ⟨?_, ?_, ?_⟩
  · intro hinc
    simp [templateSource, readInclude, hinc, hr]
  · intro p hinc hp hne
    simp only [templateSource, readInclude, hinc, hp, hr, normalizePrelude_of_ne_nil p hne,
      ne_eq, not_false_eq_true, if_true]
    by_cases hl : p.getLast? = some nl
    · simp [hl]
    · simp [hl]
  · intro v source hv hs
    simp only [parseTemplate, hv, hs]

/-- An instance of C3: the include file `vars.inc` holds `X=1` without a final
newline, the root file holds `echo $X` and a newline; the source is the two
texts with one newline between them. -/
theorem templateSource_composition_witness :
    ReadFile (calmWorld [("vars.inc".toList, .file "X=1".toList),
        ("main.tpl".toList, .file "echo $X\n".toList)] []).fs "main.tpl".toList
      = .ok "echo $X\n".toList ∧
    templateSource (calmWorld [("vars.inc".toList, .file "X=1".toList),
        ("main.tpl".toList, .file "echo $X\n".toList)] []) "main.tpl".toList
        { IncludeFile := "vars.inc".toList }
      = .ok "X=1\necho $X\n".toList :=
  ⟨by decide,
    ((templateSource_composition (calmWorld [("vars.inc".toList, .file "X=1".toList),
        ("main.tpl".toList, .file "echo $X\n".toList)] []) "main.tpl".toList
        { IncludeFile := "vars.inc".toList } "echo $X\n".toList (by decide)).2.1
      "X=1".toList (by decide) (by decide) (by decide)).trans (by decide)⟩

/-- A zero-byte include file makes the run panic: the read succeeds, the
inspection of the last byte is out of bounds. -/
theorem parseTemplate_empty_include {Tree AST : Type} (w : World Tree AST)
    (tmplfile : GoString) (cf : CLIConf) (v : GoMap GoString)
    (hv : parseExtraVars cf = .ok v) (h : EmptyInclude w cf) :
    parseTemplate w tmplfile cf =
      { stdout := [], exit := .panicked (.indexOutOfRange (-1) 0) } := by
  obtain ⟨hinc, hread⟩ := h
  have hn : normalizePrelude [] = .error (.indexOutOfRange (-1) 0) := by decide
  simp [parseTemplate, hv, templateSource, readInclude, hinc, hread, hn]

/-- C10. The prelude normalisation on the empty content indexes the slice at
`-1`: it panics with `index out of range [-1]` and produces no prelude, and a
run whose include file `empty.inc` has zero bytes ends in that panic (exit
status 2) with nothing written, although every file is readable. -/
theorem normalizePrelude_empty_panics :
    normalizePrelude [] = .error (.indexOutOfRange (-1) 0) ∧
    parseTemplate (calmWorld [("empty.inc".toList, .file []),
        ("main.tpl".toList, .file "echo hi\n".toList)] "echo hi\n".toList)
        "main.tpl".toList { IncludeFile := "empty.inc".toList }
      = { stdout := [], exit := .panicked (.indexOutOfRange (-1) 0) } ∧
    (Exit.panicked (.indexOutOfRange (-1) 0)).code = 2 := by
  refine ⟨by decide, ?_, rfl⟩
  exact parseTemplate_empty_include _ _ _ [] (by decide) ⟨by decide, by decide⟩

/-! ## The outcome of `parseTemplate` -/

theorem Println_pair (msg err : GoString) :
    Println [msg, err] = msg ++ ' ' :: (err ++ [nl]) := rfl

theorem lineCount_Println_pair (msg err : GoString) :
    lineCount (Println [msg, err]) = lineCount msg + lineCount err + 1 := by
  have hsp : ¬ ((' ' : Char) = nl) := by decide
  simp [Println_pair, lineCount, List.count_cons, hsp]
  omega

theorem head_Println_pair (msg err : GoString) (c : Char) (h : msg.head? = some c) :
    (Println [msg, err]).head? = some c := by
  cases msg with
  | nil => simp at h
  | cons a l => simpa [Println_pair] using h

theorem getLast_Println_pair (msg err : GoString) :
    (Println [msg, err]).getLast? = some nl := by
  rw [Println_pair, ← List.cons_append, ← List.append_assoc, List.getLast?_append]
  simp

theorem StageFails_msg {Tree AST : Type} (w : World Tree AST) (tmplfile : GoString)
    (cf : CLIConf) (v : GoMap GoString) (msg err : GoString)
    (h : StageFails w tmplfile cf v msg err) :
    msg.head? = some '#' ∧ lineCount msg = 0 := by
  rcases h with ⟨rfl, -⟩ | ⟨rfl, -⟩ | ⟨rfl, -⟩ | ⟨rfl, -⟩ | ⟨rfl, -⟩ | ⟨rfl, -⟩ <;> decide

theorem StageFails_mem {Tree AST : Type} (w : World Tree AST) (tmplfile : GoString)
    (cf : CLIConf) (v : GoMap GoString) (msg err : GoString)
    (h : StageFails w tmplfile cf v msg err) :
    msg ∈ [msgIncRead, msgFileRead, msgParse, msgIncPath, msgExecute, msgShell] := by
  rcases h with ⟨rfl, -⟩ | ⟨rfl, -⟩ | ⟨rfl, -⟩ | ⟨rfl, -⟩ | ⟨rfl, -⟩ | ⟨rfl, -⟩ <;> simp

theorem parseTemplate_of_stagesSucceed {Tree AST : Type} (w : World Tree AST)
    (tmplfile : GoString) (cf : CLIConf) (sh : AST)
    (h : StagesSucceed w tmplfile cf sh) :
    parseTemplate w tmplfile cf =
      { stdout := [.Fprint (w.Fprint 2 sh)], exit := .returned } := by
  obtain ⟨v, source, t, t', buf, hv, hs, hp, hi, he, hsh⟩ := h
  simp [parseTemplate, renderAndPrint, hv, hs, hp, hi, he, hsh]

theorem parseTemplate_of_stageFails {Tree AST : Type} (w : World Tree AST)
    (tmplfile : GoString) (cf : CLIConf) (v : GoMap GoString) (msg err : GoString)
    (hv : parseExtraVars cf = .ok v) (h : StageFails w tmplfile cf v msg err) :
    parseTemplate w tmplfile cf = abort msg err := by
  rcases h with ⟨rfl, hinc, hr⟩ | ⟨rfl, inc, hri, hr⟩ | ⟨rfl, source, hs, hp⟩ |
    ⟨rfl, source, t, hs, hp, hi⟩ | ⟨rfl, source, t, t', buf, hs, hp, hi, he⟩ |
    ⟨rfl, source, t, t', buf, hs, hp, hi, he, hsh⟩
  · simp [parseTemplate, hv, templateSource, readInclude, hinc, hr]
  · simp [parseTemplate, hv, templateSource, hri, hr]
  · simp [parseTemplate, hv, hs, hp]
  · simp [parseTemplate, renderAndPrint, hv, hs, hp, hi]
  · simp [parseTemplate, renderAndPrint, hv, hs, hp, hi, he]
  · simp [parseTemplate, renderAndPrint, hv, hs, hp, hi, he, hsh]

theorem readInclude_cases {Tree AST : Type} (w : World Tree AST) (cf : CLIConf) :
    (∃ incFile, readInclude w cf = .ok incFile) ∨
    (∃ err, cf.IncludeFile ≠ [] ∧ ReadFile w.fs cf.IncludeFile = .error err) ∨
    EmptyInclude w cf := by
  by_cases hinc : cf.IncludeFile = []
  · exact Or.inl ⟨[], by simp [readInclude, hinc]⟩
  · cases hr : ReadFile w.fs cf.IncludeFile with
    | error err => exact Or.inr (Or.inl ⟨err, hinc, rfl⟩)
    | ok p =>
      by_cases hp : p = []
      · subst hp
        exact Or.inr (Or.inr ⟨hinc, hr⟩)
      · exact Or.inl ⟨if p.getLast? = some nl then p else p ++ [nl], by
          simp [readInclude, hinc, hr, normalizePrelude_of_ne_nil p hp]⟩

/-- Every run of `parseTemplate` is of one of three kinds: all stages succeed
and the formatted script is the one write; or the run panics before the
template is parsed; or one stage fails and the run aborts with its message. -/
theorem parseTemplate_classify {Tree AST : Type} (w : World Tree AST)
    (tmplfile : GoString) (cf : CLIConf) :
    (∃ sh, StagesSucceed w tmplfile cf sh) ∨
    (∃ p, parseTemplate w tmplfile cf = { stdout := [], exit := .panicked p } ∧
      (parseExtraVars cf = .error p ∨ EmptyInclude w cf)) ∨
    (∃ v msg err, parseExtraVars cf = .ok v ∧ StageFails w tmplfile cf v msg err) := by
  cases hv : parseExtraVars cf with
  | error p =>
    exact Or.inr (Or.inl ⟨p, by simp [parseTemplate, hv], Or.inl rfl⟩)
  | ok v =>
    rcases readInclude_cases w cf with ⟨inc, hri⟩ | ⟨err, hinc, hr⟩ | hempty
    · cases hr : ReadFile w.fs tmplfile with
      | error err =>
        exact Or.inr (Or.inr ⟨v, msgFileRead, err, rfl, Or.inr (Or.inl ⟨rfl, inc, hri, hr⟩)⟩)
      | ok mainFile =>
        have hs : templateSource w tmplfile cf = .ok (inc ++ mainFile) := by
          simp [templateSource, hri, hr]
        cases hp : w.Parse (TemplateSet.New Tree mainName) (inc ++ mainFile) with
        | error err =>
          exact Or.inr (Or.inr ⟨v, msgParse, err, rfl,
            Or.inr (Or.inr (Or.inl ⟨rfl, _, hs, hp⟩))⟩)
        | ok t =>
          cases hi : addIncludePath w cf t with
          | error err =>
            exact Or.inr (Or.inr ⟨v, msgIncPath, err, rfl,
              Or.inr (Or.inr (Or.inr (Or.inl ⟨rfl, _, t, hs, hp, hi⟩)))⟩)
          | ok t' =>
            cases he : w.ExecuteTemplate t' mainName v with
            | mk buf oerr =>
              cases oerr with
              | some err =>
                exact Or.inr (Or.inr ⟨v, msgExecute, err, rfl,
                  Or.inr (Or.inr (Or.inr (Or.inr (Or.inl
                    ⟨rfl, _, t, t', buf, hs, hp, hi, he⟩))))⟩)
              | none =>
                cases hsh : w.shParse buf with
                | error err =>
                  exact Or.inr (Or.inr ⟨v, msgShell, err, rfl,
                    Or.inr (Or.inr (Or.inr (Or.inr (Or.inr
                      ⟨rfl, _, t, t', buf, hs, hp, hi, he, hsh⟩))))⟩)
                | ok sh =>
                  exact Or.inl ⟨sh, v, _, t, t', buf, hv, hs, hp, hi, he, hsh⟩
    · exact Or.inr (Or.inr ⟨v, msgIncRead, err, rfl, Or.inl ⟨rfl, hinc, hr⟩⟩)
    · exact Or.inr (Or.inl ⟨_, parseTemplate_empty_include w tmplfile cf v hv hempty,
        Or.inr hempty⟩)

/-- C4, as amended.  In a run whose variable table is built: if a stage fails
with error `err`, the run ends with exit code 1 after exactly one write, a
`Println` text that begins with `#`, ends with a newline and holds one newline
more than the message of `err` (it is a single line when that message holds
none); if no stage fails and the include file is not a zero-byte file, the run
returns (exit code 0) and its one write is the formatted script. -/
theorem parseTemplate_failure_mapping {Tree AST : Type} (w : World Tree AST)
    (tmplfile : GoString) (cf : CLIConf) (v : GoMap GoString)
    (hv : parseExtraVars cf = .ok v) :
    (∀ msg err, StageFails w tmplfile cf v msg err →
      (parseTemplate w tmplfile cf).exit = .osExit 1 ∧
      (parseTemplate w tmplfile cf).exit.code = 1 ∧
      ∃ line, (parseTemplate w tmplfile cf).stdout = [.Println line] ∧
        line = Println [msg, err] ∧
        line.head? = some '#' ∧ line.getLast? = some nl ∧
        lineCount line = 1 + lineCount err) ∧
    ((∀ msg err, ¬ StageFails w tmplfile cf v msg err) → ¬ EmptyInclude w cf →
      (parseTemplate w tmplfile cf).exit = .returned ∧
      (parseTemplate w tmplfile cf).exit.code = 0 ∧
      ∃ sh, (parseTemplate w tmplfile cf).stdout = [.Fprint (w.Fprint 2 sh)]) := by
  constructor
  · intro msg err h
    have hm := StageFails_msg w tmplfile cf v msg err h
    rw [parseTemplate_of_stageFails w tmplfile cf v msg err hv h]
    refine ⟨rfl, rfl, Println [msg, err], rfl, rfl, head_Println_pair msg err _ hm.1,
      getLast_Println_pair msg err, ?_⟩
    rw [lineCount_Println_pair, hm.2]
    omega
  · intro hno hne
    rcases parseTemplate_classify w tmplfile cf with ⟨sh, hs⟩ | ⟨p, -, hp | hp⟩ |
      ⟨v', msg, err, hv', hf⟩
    · rw [parseTemplate_of_stagesSucceed w tmplfile cf sh hs]
      exact ⟨rfl, rfl, sh, rfl⟩
    · rw [hv] at hp
      cases hp
    · exact absurd hp hne
    · rw [hv] at hv'
      cases hv'
      exact absurd hf (hno msg err)

/-- An instance of C4: no file exists, the root-file read fails, and the run
ends with exit code 1 after one `#` line. -/
theorem parseTemplate_failure_mapping_witness :
    parseExtraVars ({} : CLIConf) = .ok [] ∧
    StageFails (calmWorld [] []) "main.tpl".toList ({} : CLIConf) [] msgFileRead
      "open main.tpl: no such file or directory".toList ∧
    (parseTemplate (calmWorld [] []) "main.tpl".toList ({} : CLIConf)).exit.code = 1 ∧
    (parseTemplate (calmWorld [] []) "main.tpl".toList ({} : CLIConf)).stdout =
      [.Println "# Aborting due file read error: open main.tpl: no such file or directory\n".toList] :=
  have hfail : StageFails (calmWorld [] []) "main.tpl".toList ({} : CLIConf) [] msgFileRead
      "open main.tpl: no such file or directory".toList :=
    Or.inr (Or.inl ⟨rfl, [], by decide, by decide⟩)
  ⟨by decide, hfail,
    ((parseTemplate_failure_mapping (calmWorld [] []) "main.tpl".toList ({} : CLIConf) []
      (by decide)).1 _ _ hfail).2.1,
    by decide⟩

/-- C4 as stated fails in two ways.  First: the include file `a⏎b` (a name
with a newline in it) does not exist; the include-file read fails and the run
exits with code 1, but the diagnostic holds two newlines: it is two lines, and
the second does not begin with `#`.  Second: the include file `empty.inc` is
read with zero bytes; no stage fails, yet the run ends in a panic, with exit
status 2 and no diagnostic. -/
theorem parseTemplate_failure_mapping_counterexample :
    (StageFails (calmWorld [("main.tpl".toList, .file "echo hi\n".toList)] "echo hi\n".toList)
        "main.tpl".toList { IncludeFile := "a\nb".toList } [] msgIncRead
        "open a\nb: no such file or directory".toList ∧
      parseTemplate (calmWorld [("main.tpl".toList, .file "echo hi\n".toList)] "echo hi\n".toList)
          "main.tpl".toList { IncludeFile := "a\nb".toList }
        = { stdout := [.Println
              "# Aborting due incfile read error: open a\nb: no such file or directory\n".toList],
            exit := .osExit 1 } ∧
      lineCount
          "# Aborting due incfile read error: open a\nb: no such file or directory\n".toList
        = 2) ∧
    ((∀ msg err, ¬ StageFails (calmWorld [("empty.inc".toList, .file []),
          ("main.tpl".toList, .file "echo hi\n".toList)] "echo hi\n".toList)
        "main.tpl".toList { IncludeFile := "empty.inc".toList } [] msg err) ∧
      (parseTemplate (calmWorld [("empty.inc".toList, .file []),
          ("main.tpl".toList, .file "echo hi\n".toList)] "echo hi\n".toList)
        "main.tpl".toList { IncludeFile := "empty.inc".toList }).stdout = [] ∧
      (parseTemplate (calmWorld [("empty.inc".toList, .file []),
          ("main.tpl".toList, .file "echo hi\n".toList)] "echo hi\n".toList)
        "main.tpl".toList { IncludeFile := "empty.inc".toList }).exit.code = 2) := by
  refine ⟨⟨Or.inl ⟨rfl, by decide, by decide⟩, by decide, by decide⟩, ?_, by decide, by decide⟩
  have e1 : ReadFile (calmWorld [("empty.inc".toList, .file []),
      ("main.tpl".toList, .file "echo hi\n".toList)] "echo hi\n".toList).fs
      "empty.inc".toList = .ok [] := by decide
  have e2 : readInclude (calmWorld [("empty.inc".toList, .file []),
      ("main.tpl".toList, .file "echo hi\n".toList)] "echo hi\n".toList)
      { IncludeFile := "empty.inc".toList }
      = .error { stdout := [], exit := .panicked (.indexOutOfRange (-1) 0) } := by decide
  have e3 : templateSource (calmWorld [("empty.inc".toList, .file []),
      ("main.tpl".toList, .file "echo hi\n".toList)] "echo hi\n".toList) "main.tpl".toList
      { IncludeFile := "empty.inc".toList }
      = .error { stdout := [], exit := .panicked (.indexOutOfRange (-1) 0) } := by decide
  rintro msg err (⟨-, -, h⟩ | ⟨-, inc, h, -⟩ | ⟨-, src, h, -⟩ | ⟨-, src, t, h, -⟩ |
    ⟨-, src, t, t', buf, h, -⟩ | ⟨-, src, t, t', buf, h, -⟩)
  · exact Except.noConfusion (e1.symm.trans h)
  · exact Except.noConfusion (e2.symm.trans h)
  · exact Except.noConfusion (e3.symm.trans h)
  · exact Except.noConfusion (e3.symm.trans h)
  · exact Except.noConfusion (e3.symm.trans h)
  · exact Except.noConfusion (e3.symm.trans h)

theorem scriptWrites_abort (msg err : GoString) : (abort msg err).scriptWrites = [] := rfl

/-- C5. The run writes script text to standard output if and only if every
stage succeeded; in that case the run makes exactly one write, the printer's
output (two spaces of indentation) for the tree the shell parser returned for
the complete rendered text, and returns.  In every other case no rendered and
no formatted script text is written: either nothing at all is written (the
run panicked before the template was parsed), or a stage failed with an error
`err` and the whole of standard output is the one `Println` of that stage's
fixed message and the message of `err`, after which the run exits with
code 1. -/
theorem parseTemplate_no_partial_script {Tree AST : Type} (w : World Tree AST)
    (tmplfile : GoString) (cf : CLIConf) :
    ((parseTemplate w tmplfile cf).scriptWrites ≠ [] ↔ ∃ sh, StagesSucceed w tmplfile cf sh) ∧
    (∀ sh, StagesSucceed w tmplfile cf sh →
      parseTemplate w tmplfile cf =
        { stdout := [.Fprint (w.Fprint 2 sh)], exit := .returned }) ∧
    ((¬ ∃ sh, StagesSucceed w tmplfile cf sh) →
      (parseTemplate w tmplfile cf).scriptWrites = [] ∧
      (∀ x ∈ (parseTemplate w tmplfile cf).stdout, ∃ line, x = .Println line) ∧
      ((∃ p, parseTemplate w tmplfile cf = { stdout := [], exit := .panicked p }) ∨
        ∃ v msg err, parseExtraVars cf = .ok v ∧ StageFails w tmplfile cf v msg err ∧
          msg ∈ [msgIncRead, msgFileRead, msgParse, msgIncPath, msgExecute, msgShell] ∧
          parseTemplate w tmplfile cf =
            { stdout := [.Println (msg ++ ' ' :: (err ++ [nl]))], exit := .osExit 1 })) := by
  have key : (¬ ∃ sh, StagesSucceed w tmplfile cf sh) →
      (parseTemplate w tmplfile cf).scriptWrites = [] ∧
      (∀ x ∈ (parseTemplate w tmplfile cf).stdout, ∃ line, x = .Println line) ∧
      ((∃ p, parseTemplate w tmplfile cf = { stdout := [], exit := .panicked p }) ∨
        ∃ v msg err, parseExtraVars cf = .ok v ∧ StageFails w tmplfile cf v msg err ∧
          msg ∈ [msgIncRead, msgFileRead, msgParse, msgIncPath, msgExecute, msgShell] ∧
          parseTemplate w tmplfile cf =
            { stdout := [.Println (msg ++ ' ' :: (err ++ [nl]))], exit := .osExit 1 }) := by
    intro hno
    rcases parseTemplate_classify w tmplfile cf with hs | ⟨p, hp, -⟩ | ⟨v, msg, err, hv, hf⟩
    · exact absurd hs hno
    · refine ⟨?_, ?_, Or.inl ⟨p, hp⟩⟩
      · rw [hp]
        rfl
      · rw [hp]
        simp
    · have habort := parseTemplate_of_stageFails w tmplfile cf v msg err hv hf
      refine ⟨?_, ?_, Or.inr ⟨v, msg, err, hv, hf, StageFails_mem w tmplfile cf v msg err hf, ?_⟩⟩
      · rw [habort]
        rfl
      · rw [habort]
        simp [abort]
      · rw [habort]
        rfl
  refine ⟨⟨?_, ?_⟩, fun sh h => parseTemplate_of_stagesSucceed w tmplfile cf sh h, key⟩
  · intro hne
    by_contra hno
    exact hne (key hno).1
  · rintro ⟨sh, hs⟩
    rw [parseTemplate_of_stagesSucceed w tmplfile cf sh hs]
    simp [Outcome.scriptWrites]

/-- An instance of C5: the root file exists and every stage succeeds; the one
write is the printed script. -/
theorem parseTemplate_no_partial_script_witness :
    StagesSucceed (calmWorld [("main.tpl".toList, .file "echo hi\n".toList)] "echo hi\n".toList)
      "main.tpl".toList ({} : CLIConf) "echo hi\n".toList ∧
    parseTemplate (calmWorld [("main.tpl".toList, .file "echo hi\n".toList)] "echo hi\n".toList)
        "main.tpl".toList ({} : CLIConf)
      = { stdout := [.Fprint "echo hi\n".toList], exit := .returned } :=
  have hs : StagesSucceed
      (calmWorld [("main.tpl".toList, .file "echo hi\n".toList)] "echo hi\n".toList)
      "main.tpl".toList ({} : CLIConf) "echo hi\n".toList :=
    ⟨[], "echo hi\n".toList, TemplateSet.New Unit mainName, TemplateSet.New Unit mainName,
      "echo hi\n".toList, by decide, by decide, rfl, rfl, rfl, rfl⟩
  ⟨hs, (parseTemplate_no_partial_script _ _ _).2.1 _ hs⟩

/-- The failure half of C5 at a run whose shell parse fails after the whole
text was rendered: standard output is the one diagnostic line, which holds
the parser's message and nothing of the rendered text. -/
theorem parseTemplate_shell_error_output :
    parseTemplate
        ({ calmWorld [("main.tpl".toList, .file "if true\n".toList)] "if true\n".toList with
            shParse := fun _ => .error "1:1: if statement must end with fi".toList } :
          World Unit GoString)
        "main.tpl".toList ({} : CLIConf)
      = { stdout := [.Println
            "# Aborting due to shell parse error: 1:1: if statement must end with fi\n".toList],
          exit := .osExit 1 } := by
  decide

/-! ## `listTemplates` -/

theorem listTemplatesLoop_eq {Tree : Type} (ts : List (Template Tree)) (acc : GoString) :
    listTemplatesLoop ts acc = acc ++ nameLines (ts.map (fun r => r.name)) := by
  induction ts generalizing acc with
  | nil => simp [listTemplatesLoop, nameLines]
  | cons r rest ih =>
    simp [listTemplatesLoop, ih, nameLines, List.append_assoc]

theorem listTemplates_eq {Tree : Type} (ts : List (Template Tree)) :
    listTemplates ts = nameLines (ts.map (fun r => r.name)) := by
  simp [listTemplates, listTemplatesLoop_eq]

theorem lineCount_nameLines (names : List GoString) :
    lineCount (nameLines names) = names.length + (names.map lineCount).sum := by
  induction names with
  | nil => simp [nameLines, lineCount]
  | cons a l ih =>
    simp only [nameLines, lineCount] at ih
    simp [nameLines, lineCount, List.count_append, ih]
    omega

theorem IsTemplates_names {Tree : Type} (t : TemplateSet Tree) (ts : List (Template Tree))
    (h : IsTemplates t ts) : (ts.map (fun r => r.name)).Perm t.names := by
  have h1 : (ts.map (fun r => r.name)).Perm ((t.tmpl.map Prod.snd).map (fun r => r.name)) :=
    List.Perm.map _ h
  have h2 : (t.tmpl.map Prod.snd).map (fun r => r.name) = t.names := by
    rw [List.map_map]
    exact List.map_congr_left (fun p hp => t.nameEq p hp)
  rw [h2] at h1
  exact h1

/-- C6, as amended.  For every template set and every slice `Templates()` may
return for it, the string `listTemplates` returns is the concatenation of the
names of that slice, each followed by one newline and nothing else; these
names are the registered names, each exactly once; so the string holds as
many newlines as there are registered templates plus the newlines inside the
names, and exactly `n` lines for `n` registered templates when no name holds a
newline. -/
theorem listTemplates_lists_names {Tree : Type} (t : TemplateSet Tree)
    (ts : List (Template Tree)) (h : IsTemplates t ts) :
    listTemplates ts = nameLines (ts.map (fun r => r.name)) ∧
    (ts.map (fun r => r.name)).Perm t.names ∧
    (ts.map (fun r => r.name)).Nodup ∧
    (∀ name, name ∈ ts.map (fun r => r.name) ↔ name ∈ t.names) ∧
    lineCount (listTemplates ts) = t.names.length + (t.names.map lineCount).sum ∧
    ((∀ name ∈ t.names, nl ∉ name) → lineCount (listTemplates ts) = t.names.length) := by
  have hperm := IsTemplates_names t ts h
  have hnd : (ts.map (fun r => r.name)).Nodup := (List.Perm.nodup_iff hperm).mpr t.keysNodup
  have hcount : lineCount (listTemplates ts) = t.names.length + (t.names.map lineCount).sum := by
    rw [listTemplates_eq, lineCount_nameLines, List.Perm.length_eq hperm,
      List.Perm.sum_eq (List.Perm.map lineCount hperm)]
  refine ⟨listTemplates_eq ts, hperm, hnd, ?_, hcount, ?_⟩
  · intro name
    exact List.Perm.mem_iff hperm
  · intro hno
    rw [hcount]
    have hz : (t.names.map lineCount).sum = 0 := by
      apply List.sum_eq_zero
      intro x hx
      obtain ⟨name, hname, rfl⟩ := List.mem_map.mp hx
      exact List.count_eq_zero_of_not_mem (hno name hname)
    omega

/-- An instance of C6: the set with the templates `__main__` and `helper`,
enumerated in that order, gives the two names on two lines. -/
theorem listTemplates_lists_names_witness :
    IsTemplates twoTemplates
      [{ name := mainName, tree := () }, { name := "helper".toList, tree := () }] ∧
    listTemplates ([{ name := mainName, tree := () }, { name := "helper".toList, tree := () }] :
      List (Template Unit)) = "__main__\nhelper\n".toList ∧
    lineCount (listTemplates ([{ name := mainName, tree := () },
      { name := "helper".toList, tree := () }] : List (Template Unit))) = 2 :=
  ⟨List.Perm.refl _, by decide,
    ((listTemplates_lists_names twoTemplates
      [{ name := mainName, tree := () }, { name := "helper".toList, tree := () }]
      (List.Perm.refl _)).2.2.2.2.2 (by decide)).trans (by decide)⟩

/-- C6 as stated fails for a name with a newline in it: the set holds two
templates, `__main__` and `a⏎b`, and the string returned has three lines. -/
theorem listTemplates_lines_counterexample :
    IsTemplates newlineNamed
      [{ name := mainName, tree := () }, { name := "a\nb".toList, tree := () }] ∧
    newlineNamed.names.length = 2 ∧
    listTemplates ([{ name := mainName, tree := () }, { name := "a\nb".toList, tree := () }] :
      List (Template Unit)) = "__main__\na\nb\n".toList ∧
    lineCount (listTemplates ([{ name := mainName, tree := () },
      { name := "a\nb".toList, tree := () }] : List (Template Unit))) = 3 :=
  ⟨List.Perm.refl _, by decide, by decide, by decide⟩

/-- C7, as amended.  Two calls of `listTemplates` on the same unchanged set
return strings made of the same newline-terminated names, possibly in a
different order: the two lists of lines are permutations of each other, the
strings have the same bytes up to order and the same length; the strings are
equal when `Templates()` enumerates the names in the same order both times,
and in particular when the set holds at most one template. -/
theorem listTemplates_same_lines {Tree : Type} (t : TemplateSet Tree)
    (ts₁ ts₂ : List (Template Tree)) (h₁ : IsTemplates t ts₁) (h₂ : IsTemplates t ts₂) :
    listTemplates ts₁ = nameLines (ts₁.map (fun r => r.name)) ∧
    listTemplates ts₂ = nameLines (ts₂.map (fun r => r.name)) ∧
    (ts₁.map (fun r => r.name ++ [nl])).Perm (ts₂.map (fun r => r.name ++ [nl])) ∧
    (listTemplates ts₁).Perm (listTemplates ts₂) ∧
    (listTemplates ts₁).length = (listTemplates ts₂).length ∧
    (ts₁.map (fun r => r.name) = ts₂.map (fun r => r.name) →
      listTemplates ts₁ = listTemplates ts₂) ∧
    (t.names.length ≤ 1 → listTemplates ts₁ = listTemplates ts₂) := by
  have hperm : ts₁.Perm ts₂ := h₁.trans h₂.symm
  have hlines : (ts₁.map (fun r => r.name ++ [nl])).Perm (ts₂.map (fun r => r.name ++ [nl])) :=
    List.Perm.map _ hperm
  have hbytes : (listTemplates ts₁).Perm (listTemplates ts₂) := by
    rw [listTemplates_eq, listTemplates_eq]
    simp only [nameLines, List.map_map]
    exact List.Perm.flatten hlines
  refine ⟨listTemplates_eq ts₁, listTemplates_eq ts₂, hlines, hbytes,
    List.Perm.length_eq hbytes, ?_, ?_⟩
  · intro hsame
    rw [listTemplates_eq, listTemplates_eq, hsame]
  · intro hle
    have hlen : ts₂.length ≤ 1 := by
      have := List.Perm.length_eq (IsTemplates_names t ts₂ h₂)
      simp only [List.length_map] at this
      omega
    have heq : ts₁ = ts₂ := by
      match ts₂, hlen, hperm with
      | [], _, hp => exact List.Perm.eq_nil hp
      | [a], _, hp => exact List.perm_singleton.mp hp
      | _ :: _ :: _, hl, _ => simp at hl
    rw [heq]

/-- An instance of C7: the two enumerations of the set with `__main__` and
`helper` give strings with the same lines. -/
theorem listTemplates_same_lines_witness :
    IsTemplates twoTemplates
      [{ name := mainName, tree := () }, { name := "helper".toList, tree := () }] ∧
    IsTemplates twoTemplates
      [{ name := "helper".toList, tree := () }, { name := mainName, tree := () }] ∧
    (listTemplates ([{ name := mainName, tree := () },
        { name := "helper".toList, tree := () }] : List (Template Unit))).length =
      (listTemplates ([{ name := "helper".toList, tree := () },
        { name := mainName, tree := () }] : List (Template Unit))).length :=
  ⟨List.Perm.refl _, List.Perm.swap _ _ _,
    (listTemplates_same_lines twoTemplates _ _ (List.Perm.refl _)
      (List.Perm.swap _ _ _)).2.2.2.2.1⟩

/-- C7 as stated fails: for the set with the templates `__main__` and
`helper`, both enumerations are possible results of `Templates()`, and the two
strings `listTemplates` builds from them differ. -/
theorem listTemplates_order_counterexample :
    ∃ ts₁ ts₂ : List (Template Unit),
      IsTemplates twoTemplates ts₁ ∧ IsTemplates twoTemplates ts₂ ∧
      listTemplates ts₁ = "__main__\nhelper\n".toList ∧
      listTemplates ts₂ = "helper\n__main__\n".toList ∧
      listTemplates ts₁ ≠ listTemplates ts₂ :=
  ⟨[{ name := mainName, tree := () }, { name := "helper".toList, tree := () }],
    [{ name := "helper".toList, tree := () }, { name := mainName, tree := () }],
    List.Perm.refl _, List.Perm.swap _ _ _, by decide, by decide, by decide⟩

/-! ## The include path -/

/-- When the include path names a directory, the call
`tmpl.ParseFiles(cf.IncludePath)` reads the directory as if it were a file and
fails; no template is registered for the files of the directory, and the run
does not return normally. -/
theorem parseTemplate_include_dir {Tree AST : Type} (w : World Tree AST)
    (tmplfile : GoString) (cf : CLIConf) (entries : List GoString)
    (hpath : cf.IncludePath ≠ []) (hdir : w.fs cf.IncludePath = .dir entries) :
    (∀ t, addIncludePath w cf t =
      .error ("read ".toList ++ cf.IncludePath ++ ": is a directory".toList)) ∧
    (parseTemplate w tmplfile cf).exit ≠ .returned := by
  have hadd : ∀ t, addIncludePath w cf t =
      .error ("read ".toList ++ cf.IncludePath ++ ": is a directory".toList) := by
    intro t
    simp [addIncludePath, hpath, ParseFiles, parseFilesLoop, ReadFile, hdir]
  refine ⟨hadd, ?_⟩
  rcases parseTemplate_classify w tmplfile cf with ⟨sh, v, source, t, t', buf, -, -, -, hi, -⟩ |
    ⟨p, hp, -⟩ | ⟨v, msg, err, hv, hf⟩
  · rw [hadd t] at hi
    cases hi
  · rw [hp]
    simp
  · rw [parseTemplate_of_stageFails w tmplfile cf v msg err hv hf]
    simp [abort]

/-- C8. The include path `partials` is a directory that holds the files
`a.tpl` and `b.tpl`; the root file is readable and parses.  The run reads the
directory itself as a template file, fails, prints the include-path
diagnostic and exits with code 1: no file of the directory is parsed. -/
theorem parseTemplate_include_dir_fails :
    (calmWorld [("main.tpl".toList, .file "echo hi\n".toList),
        ("partials".toList, .dir ["a.tpl".toList, "b.tpl".toList]),
        ("partials/a.tpl".toList, .file "echo a\n".toList),
        ("partials/b.tpl".toList, .file "echo b\n".toList)] "echo hi\n".toList).fs
      "partials".toList = .dir ["a.tpl".toList, "b.tpl".toList] ∧
    parseTemplate (calmWorld [("main.tpl".toList, .file "echo hi\n".toList),
        ("partials".toList, .dir ["a.tpl".toList, "b.tpl".toList]),
        ("partials/a.tpl".toList, .file "echo a\n".toList),
        ("partials/b.tpl".toList, .file "echo b\n".toList)] "echo hi\n".toList)
        "main.tpl".toList { IncludePath := "partials".toList }
      = { stdout := [.Println
            "# error parsing include path files: read partials: is a directory\n".toList],
          exit := .osExit 1 } := by
  constructor <;> decide

/-! ## `main` of cmd/main.go -/

/-- When the template file parses and its execution fails, `main` prints the
diagnostic, writes nothing of the buffer, and returns: the exit code is 0. -/
theorem main_execute_error {Tree AST : Type} (w : World Tree AST) (Args : List GoString)
    (file : GoString) (t : TemplateSet Tree) (buf err : GoString)
    (hargs : sliceAt Args 1 = .ok file)
    (hparse : templateParseFiles w [file] = .ok t)
    (hexec : w.ExecuteTemplate t t.name mainVars = (buf, some err)) :
    main w Args = { stdout := [.Println (Println [msgError, err])], exit := .returned } ∧
    (main w Args).exit.code = 0 ∧ (main w Args).scriptWrites = [] := by
  have h : main w Args =
      { stdout := [.Println (Println [msgError, err])], exit := .returned } := by
    simp [main, mainBody, hargs, hparse, hexec]
  rw [h]
  exact ⟨rfl, rfl, rfl⟩

/-- C9. The template file `t.tpl` parses and its execution fails after the
text `echo ` was written to the buffer: `main` prints a diagnostic that begins
with `#` and writes none of the buffer, but it returns, so the exit code is 0.
On a missing template file, the parse failure, the same `main` exits with
code 1. -/
theorem main_execute_error_exit_zero :
    main (execFailWorld [("t.tpl".toList, .file "echo \x7b\x7b.USERNAME.Foo\x7d\x7d\n".toList)]
        "echo ".toList "template: t.tpl:1:16: executing t.tpl: no field Foo in type string".toList)
        ["main".toList, "t.tpl".toList]
      = { stdout := [.Println
            "# There was an error: template: t.tpl:1:16: executing t.tpl: no field Foo in type string\n".toList],
          exit := .returned } ∧
    (main (execFailWorld [("t.tpl".toList, .file "echo \x7b\x7b.USERNAME.Foo\x7d\x7d\n".toList)]
        "echo ".toList "template: t.tpl:1:16: executing t.tpl: no field Foo in type string".toList)
        ["main".toList, "t.tpl".toList]).exit.code = 0 ∧
    (main (execFailWorld [] [] []) ["main".toList, "t.tpl".toList]).exit.code = 1 := by
  refine ⟨by decide, by decide, by decide⟩

end Telepath
